import Mathlib

/-!
Verification development for the financial-compliance validator
(`guardrails_custom/financial_compliance_validator.py`).

The validator's core is pure string processing: lowercasing, substring
containment checks, regular-expression searches over a fixed pattern
library, and regular-expression substitutions for remediation. We embed
it shallowly:

* strings are `List Char` (ASCII case mapping, which covers all pattern
  and keyword material in the source);
* `re.search` is modelled by a small regex AST `RE` covering exactly the
  constructs the source patterns use (literals, character classes,
  alternation, `.*`/`\s+`-style class repetition, word boundaries) with a
  matcher that returns every (prev-char-kind, remaining-input) state, so
  `search` is "some match starts at some position", which is `re.search`'s
  observable behaviour as the code uses it (truthiness only);
* `re.sub` for the remediation patterns (`\bguarantee[sd]?\b` etc., all
  IGNORECASE word-bounded literal families) is modelled by a dedicated
  left-to-right scanner `subW`;
* the external collaborators (injected LLM classifier, Groq secondary
  opinion, spaCy pipeline) are explicit optional function parameters;
  a `none`/`Except.error` collaborator mirrors "not configured"/"raised".
-/

namespace FinCompliance

/-- Python `str.lower` restricted to ASCII letters (all pattern and keyword
material in the source is ASCII). -/
def lowerChar (c : Char) : Char :=
  if 65 ≤ c.toNat && c.toNat ≤ 90 then Char.ofNat (c.toNat + 32) else c

/-- Lowercase a whole string (`text.lower()`). -/
def lowers (s : List Char) : List Char := s.map lowerChar

/-- Regex word character `\w` for `\b` purposes: `[A-Za-z0-9_]`. -/
def isWordChar (c : Char) : Bool :=
  (97 ≤ c.toNat && c.toNat ≤ 122) || (65 ≤ c.toNat && c.toNat ≤ 90) ||
  (48 ≤ c.toNat && c.toNat ≤ 57) || c == '_'

/-- Regex `\d`. -/
def isDigitCh (c : Char) : Bool := 48 ≤ c.toNat && c.toNat ≤ 57

/-- Regex `\s` (ASCII whitespace, which Python's `\s` contains). -/
def isSpaceCh (c : Char) : Bool :=
  c == ' ' || c == '\t' || c == '\n' || c == '\r' ||
  c == Char.ofNat 11 || c == Char.ofNat 12

/-- Regex `.` (any character except newline, Python default). -/
def isDotCh (c : Char) : Bool := !(c == '\n')

/-- Regex `[A-Z]`. -/
def isUpperAZ (c : Char) : Bool := 65 ≤ c.toNat && c.toNat ≤ 90

/-- Regex `[\d,]`. -/
def isDigitComma (c : Char) : Bool := isDigitCh c || c == ','

/-- Regex `[- ]`. -/
def isDashSpace (c : Char) : Bool := c == '-' || c == ' '

/-- `a` is a (plain, case-sensitive) prefix of `b`. -/
def pfxEq : List Char → List Char → Bool
  | [], _ => true
  | _ :: _, [] => false
  | a :: as, b :: bs => a == b && pfxEq as bs

/-- Python's substring containment `a in b`. -/
def isSubstr (a b : List Char) : Bool :=
  pfxEq a b ||
    match b with
    | [] => false
    | _ :: t => isSubstr a t

/-- Regex abstract syntax covering the constructs used by the validator's
pattern library. Bounded repetitions like `{2,6}` and `+` are expressed by
unrolling into `cls`/`alt`/`eps` sequences; `star` repeats a character
class (`.*`, and the tail of `\s+`, `[\d,]+`, `\w+`, `[A-Z]+`). -/
inductive RE where
  | eps : RE
  | cls (p : Char → Bool) : RE
  | seq (a b : RE) : RE
  | alt (a b : RE) : RE
  | star (p : Char → Bool) : RE
  | wb : RE

/-- Whether the head of the remaining input is a word character (end of
input counts as a non-word position, as in Python `\b`). -/
def headIsWord : List Char → Bool
  | [] => false
  | c :: _ => isWordChar c

/-- All states reachable by `p*` from `(pw, s)`: each state is the pair of
"previous char is a word char" and the remaining input. -/
def matStar (p : Char → Bool) : Bool → List Char → List (Bool × List Char)
  | pw, [] => [(pw, [])]
  | pw, c :: t =>
    (pw, c :: t) :: (if p c then matStar p (isWordChar c) t else [])

/-- All-results matcher: every `(prev-is-word, remaining-input)` state after
matching `re` at the start of `s`, with `pw` recording whether the character
just before `s` is a word character (`false` at string start). -/
def mat : RE → Bool → List Char → List (Bool × List Char)
  | .eps, pw, s => [(pw, s)]
  | .cls _, _, [] => []
  | .cls p, _, c :: t => if p c then [(isWordChar c, t)] else []
  | .seq a b, pw, s => (mat a pw s).flatMap (fun r => mat b r.1 r.2)
  | .alt a b, pw, s => mat a pw s ++ mat b pw s
  | .star p, pw, s => matStar p pw s
  | .wb, pw, s => if pw != headIsWord s then [(pw, s)] else []

/-- Does a match of `re` start at some position of the remaining input,
`pw` giving the word-character status of the preceding character? -/
def searchFrom (re : RE) : Bool → List Char → Bool
  | pw, [] => !(mat re pw []).isEmpty
  | pw, c :: t => !(mat re pw (c :: t)).isEmpty || searchFrom re (isWordChar c) t

/-- Python `re.search(pattern, s) is not None`. -/
def search (re : RE) (s : List Char) : Bool := searchFrom re false s

/-- A literal string as a regex. -/
def lit (s : String) : RE :=
  s.data.foldr (fun c r => RE.seq (RE.cls (fun d => d == c)) r) RE.eps

/-- Sequence a list of regexes. -/
def seqL (rs : List RE) : RE := rs.foldr RE.seq RE.eps

/-- Alternation of a list of regexes (`(a|b|c)`); the empty list never
matches, but the pattern library never produces it. -/
def altL : List RE → RE
  | [] => RE.cls (fun _ => false)
  | [r] => r
  | r :: rs => RE.alt r (altL rs)

/-- `r?`. -/
def opt (r : RE) : RE := RE.alt r RE.eps

/-- `p+` for a character class. -/
def plusC (p : Char → Bool) : RE := RE.seq (RE.cls p) (RE.star p)

/-- `p{lo,hi}` for a character class, by unrolling: `lo` mandatory
occurrences followed by `hi - lo` optional ones. -/
def repC (lo hi : Nat) (p : Char → Bool) : RE :=
  seqL (List.replicate lo (RE.cls p) ++ List.replicate (hi - lo) (opt (RE.cls p)))

/-- `\s+`. -/
def sp : RE := plusC isSpaceCh

/-- `.*`. -/
def dotStar : RE := RE.star isDotCh

/-- `[\d,]+`. -/
def numC : RE := plusC isDigitComma

/-- `<s>s?` (a literal with an optional trailing `s`, as in `returns?`). -/
def optS (s : String) : RE := RE.seq (lit s) (opt (RE.cls (fun c => c == 's')))

/-- `guarantee[sd]?`. -/
def guaranteeSD : RE :=
  RE.seq (lit ("guarantee")) (opt (RE.cls (fun c => c == 's' || c == 'd')))

/-! ### Pattern library (`__init__`, lines 111-159 and 347-365 of the source)

Each Lean definition transcribes one Python regex literal; the checkers
apply them to the lowercased text exactly as `re.search(pattern,
text_lower)` does, so character classes such as `[A-Z]` are kept as
written even though the searched text is lowercased. -/

/-- `\b(guarantee[sd]?|assured|certain|definite|promised)\b.*\b(returns?|profits?|gains?|income)\b` -/
def gp1 : RE := seqL [RE.wb,
  altL [guaranteeSD, lit ("assured"), lit ("certain"), lit ("definite"), lit ("promised")],
  RE.wb, dotStar, RE.wb,
  altL [optS ("return"), optS ("profit"), optS ("gain"), lit ("income")], RE.wb]

/-- `\b(guarantee[sd]?)\b.*\bmake.*\b(money|returns?|profits?)\b` -/
def gp2 : RE := seqL [RE.wb, guaranteeSD, RE.wb, dotStar, RE.wb, lit ("make"), dotStar,
  RE.wb, altL [lit ("money"), optS ("return"), optS ("profit")], RE.wb]

/-- `\b(risk[- ]free|no[- ]risk|zero[- ]risk)\b` -/
def gp3 : RE := seqL [RE.wb,
  altL [seqL [lit ("risk"), RE.cls isDashSpace, lit ("free")],
        seqL [lit ("no"), RE.cls isDashSpace, lit ("risk")],
        seqL [lit ("zero"), RE.cls isDashSpace, lit ("risk")]], RE.wb]

/-- `\bwill\s+(definitely|certainly|surely)\s+.*\b(increase|rise|grow|profit)\b` -/
def gp4 : RE := seqL [RE.wb, lit ("will"), sp,
  altL [lit ("definitely"), lit ("certainly"), lit ("surely")], sp, dotStar,
  RE.wb, altL [lit ("increase"), lit ("rise"), lit ("grow"), lit ("profit")], RE.wb]

/-- `\b100%\s+(safe|secure|guaranteed)\b` -/
def gp5 : RE := seqL [RE.wb, lit ("100%"), sp,
  altL [lit ("safe"), lit ("secure"), lit ("guaranteed")], RE.wb]

/-- `\bcannot\s+(lose|fail)\b.*\b(money|investment)\b` -/
def gp6 : RE := seqL [RE.wb, lit ("cannot"), sp, altL [lit ("lose"), lit ("fail")],
  RE.wb, dotStar, RE.wb, altL [lit ("money"), lit ("investment")], RE.wb]

/-- `\bsure\s+(thing|bet|profit)\b` -/
def gp7 : RE := seqL [RE.wb, lit ("sure"), sp,
  altL [lit ("thing"), lit ("bet"), lit ("profit")], RE.wb]

/-- `\bno\s+(chance|risk)\s+of\s+loss\b` -/
def gp8 : RE := seqL [RE.wb, lit ("no"), sp, altL [lit ("chance"), lit ("risk")],
  sp, lit ("of"), sp, lit ("loss"), RE.wb]

/-- `guaranteed_return_patterns` in source order. -/
def guaranteedReturnPatterns : List RE := [gp1, gp2, gp3, gp4, gp5, gp6, gp7, gp8]

/-- `\b(will|going to)\s+.*\b(hit|reach|be worth)\s+\$[\d,]+\b` -/
def spp1 : RE := seqL [RE.wb, altL [lit ("will"), lit ("going to")], sp, dotStar,
  RE.wb, altL [lit ("hit"), lit ("reach"), lit ("be worth")], sp, lit ("$"), numC, RE.wb]

/-- `\b[A-Z]{2,5}\s+will\s+(hit|reach)\s+\$[\d,]+\b` -/
def spp2 : RE := seqL [RE.wb, repC 2 5 isUpperAZ, sp, lit ("will"), sp,
  altL [lit ("hit"), lit ("reach")], sp, lit ("$"), numC, RE.wb]

/-- `\d{1,2}/\d{1,2}/\d{4}` -/
def dateRE : RE := seqL [repC 1 2 isDigitCh, lit ("/"), repC 1 2 isDigitCh,
  lit ("/"), repC 4 4 isDigitCh]

/-- `\bby\s+(next\s+week|next\s+month|\d{1,2}/\d{1,2}/\d{4})\b.*\b(price|value)\b` -/
def spp3 : RE := seqL [RE.wb, lit ("by"), sp,
  altL [seqL [lit ("next"), sp, lit ("week")], seqL [lit ("next"), sp, lit ("month")], dateRE],
  RE.wb, dotStar, RE.wb, altL [lit ("price"), lit ("value")], RE.wb]

/-- `\bexactly\s+\d+%\s+(gain|return|profit)\b` -/
def spp4 : RE := seqL [RE.wb, lit ("exactly"), sp, plusC isDigitCh, lit ("%"), sp,
  altL [lit ("gain"), lit ("return"), lit ("profit")], RE.wb]

/-- `\bwill\s+be\s+worth\s+exactly\s+\$[\d,]+\b` -/
def spp5 : RE := seqL [RE.wb, lit ("will"), sp, lit ("be"), sp, lit ("worth"), sp,
  lit ("exactly"), sp, lit ("$"), numC, RE.wb]

/-- `\b(tomorrow|next\s+week|this\s+month)\s+.*\b(will\s+be|expect)\b` -/
def spp6 : RE := seqL [RE.wb,
  altL [lit ("tomorrow"), seqL [lit ("next"), sp, lit ("week")], seqL [lit ("this"), sp, lit ("month")]],
  sp, dotStar, RE.wb, altL [seqL [lit ("will"), sp, lit ("be")], lit ("expect")], RE.wb]

/-- `\bpredicting?\s+.*\$[\d,]+\s+by\b` -/
def spp7 : RE := seqL [RE.wb, lit ("predictin"), opt (RE.cls (fun c => c == 'g')),
  sp, dotStar, lit ("$"), numC, sp, lit ("by"), RE.wb]

/-- `specific_prediction_patterns` in source order. -/
def specificPredictionPatterns : List RE := [spp1, spp2, spp3, spp4, spp5, spp6, spp7]

/-- `\b(should|must|recommend|suggest)\s+(buy|sell|invest|trade)\b` -/
def ai1 : RE := seqL [RE.wb, altL [lit ("should"), lit ("must"), lit ("recommend"), lit ("suggest")],
  sp, altL [lit ("buy"), lit ("sell"), lit ("invest"), lit ("trade")], RE.wb]

/-- `\b(best|top|perfect)\s+(stock|investment|strategy)\b` -/
def ai2 : RE := seqL [RE.wb, altL [lit ("best"), lit ("top"), lit ("perfect")], sp,
  altL [lit ("stock"), lit ("investment"), lit ("strategy")], RE.wb]

/-- `\b(my\s+advice|i\s+recommend|you\s+should)\b` -/
def ai3 : RE := seqL [RE.wb,
  altL [seqL [lit ("my"), sp, lit ("advice")], seqL [lit ("i"), sp, lit ("recommend")],
        seqL [lit ("you"), sp, lit ("should")]], RE.wb]

/-- `\b(time\s+to\s+buy|now\s+is\s+the\s+time)\b` -/
def ai4 : RE := seqL [RE.wb,
  altL [seqL [lit ("time"), sp, lit ("to"), sp, lit ("buy")],
        seqL [lit ("now"), sp, lit ("is"), sp, lit ("the"), sp, lit ("time")]], RE.wb]

/-- `\b(buy\s+now|sell\s+now|act\s+fast)\b` -/
def ai5 : RE := seqL [RE.wb,
  altL [seqL [lit ("buy"), sp, lit ("now")], seqL [lit ("sell"), sp, lit ("now")],
        seqL [lit ("act"), sp, lit ("fast")]], RE.wb]

/-- `\b(strong\s+buy|strong\s+sell)\b` -/
def ai6 : RE := seqL [RE.wb,
  altL [seqL [lit ("strong"), sp, lit ("buy")], seqL [lit ("strong"), sp, lit ("sell")]], RE.wb]

/-- `advice_indicators` in source order. -/
def adviceIndicators : List RE := [ai1, ai2, ai3, ai4, ai5, ai6]

/-- `\bas\s+a\s+financial\s+advisor\b` -/
def lp1 : RE := seqL [RE.wb, lit ("as"), sp, lit ("a"), sp, lit ("financial"), sp, lit ("advisor"), RE.wb]

/-- `\bi\s+am\s+a\s+licensed\b` -/
def lp2 : RE := seqL [RE.wb, lit ("i"), sp, lit ("am"), sp, lit ("a"), sp, lit ("licensed"), RE.wb]

/-- `\bmy\s+professional\s+opinion\b` -/
def lp3 : RE := seqL [RE.wb, lit ("my"), sp, lit ("professional"), sp, lit ("opinion"), RE.wb]

/-- `\bfiduciary\s+(advice|duty)\b` -/
def lp4 : RE := seqL [RE.wb, lit ("fiduciary"), sp, altL [lit ("advice"), lit ("duty")], RE.wb]

/-- `\bcertified\s+financial\s+planner\b` -/
def lp5 : RE := seqL [RE.wb, lit ("certified"), sp, lit ("financial"), sp, lit ("planner"), RE.wb]

/-- `\bregistered\s+investment\s+advisor\b` -/
def lp6 : RE := seqL [RE.wb, lit ("registered"), sp, lit ("investment"), sp, lit ("advisor"), RE.wb]

/-- `licensing_patterns` in source order. -/
def licensingPatterns : List RE := [lp1, lp2, lp3, lp4, lp5, lp6]

/-- `\b[A-Z]{2,6}\s+will\s+(hit|reach|be\s+worth)\s+\$[\d,]+` -/
def ppp1 : RE := seqL [RE.wb, repC 2 6 isUpperAZ, sp, lit ("will"), sp,
  altL [lit ("hit"), lit ("reach"), seqL [lit ("be"), sp, lit ("worth")]], sp, lit ("$"), numC]

/-- `\b(stock|share|price)\s+will\s+(hit|reach)\s+\$[\d,]+` -/
def ppp2 : RE := seqL [RE.wb, altL [lit ("stock"), lit ("share"), lit ("price")], sp,
  lit ("will"), sp, altL [lit ("hit"), lit ("reach")], sp, lit ("$"), numC]

/-- `\$[\d,]+.*\b(target|prediction|forecast|by\s+\w+)\b` -/
def ppp3 : RE := seqL [lit ("$"), numC, dotStar, RE.wb,
  altL [lit ("target"), lit ("prediction"), lit ("forecast"), seqL [lit ("by"), sp, plusC isWordChar]],
  RE.wb]

/-- `\b(convince|tell|predict).*\$[\d,]+` -/
def ppp4 : RE := seqL [RE.wb, altL [lit ("convince"), lit ("tell"), lit ("predict")],
  dotStar, lit ("$"), numC]

/-- `\bwill.*\$[\d,]+.*\b(month|week|year|next)\b` -/
def ppp5 : RE := seqL [RE.wb, lit ("will"), dotStar, lit ("$"), numC, dotStar,
  RE.wb, altL [lit ("month"), lit ("week"), lit ("year"), lit ("next")], RE.wb]

/-- `\b[A-Z]+\s+(stock|shares?).*\$[\d,]+` -/
def ppp6 : RE := seqL [RE.wb, plusC isUpperAZ, sp, altL [lit ("stock"), optS ("share")],
  dotStar, lit ("$"), numC]

/-- `price_prediction_patterns` in source order (`_contains_financial_content`). -/
def pricePredictionPatterns : List RE := [ppp1, ppp2, ppp3, ppp4, ppp5, ppp6]

/-- `\b(buy|sell|trade|invest|hold).*\b[A-Z]{2,6}\b` -/
def fc1 : RE := seqL [RE.wb,
  altL [lit ("buy"), lit ("sell"), lit ("trade"), lit ("invest"), lit ("hold")],
  dotStar, RE.wb, repC 2 6 isUpperAZ, RE.wb]

/-- `\b[A-Z]{2,6}\b.*(stock|shares?|equity)` -/
def fc2 : RE := seqL [RE.wb, repC 2 6 isUpperAZ, RE.wb, dotStar,
  altL [lit ("stock"), optS ("share"), lit ("equity")]]

/-- `\b(portfolio|investment|trading|market)\b` -/
def fc3 : RE := seqL [RE.wb,
  altL [lit ("portfolio"), lit ("investment"), lit ("trading"), lit ("market")], RE.wb]

/-- `\$[\d,]+.*(profit|loss|gain|return)` -/
def fc4 : RE := seqL [lit ("$"), numC, dotStar,
  altL [lit ("profit"), lit ("loss"), lit ("gain"), lit ("return")]]

/-- `\b(bullish|bearish|rally|crash|volatility)\b` -/
def fc5 : RE := seqL [RE.wb,
  altL [lit ("bullish"), lit ("bearish"), lit ("rally"), lit ("crash"), lit ("volatility")], RE.wb]

/-- `financial_contexts` in source order (`_contains_financial_content`). -/
def financialContexts : List RE := [fc1, fc2, fc3, fc4, fc5]

/-- `financial_keywords` (a Python set; only counted, so order is irrelevant). -/
def financialKeywords : List (List Char) :=
  ["invest", "investment", "portfolio", "stock", "stocks", "bond", "bonds",
   "etf", "mutual fund", "401k", "ira", "retirement", "dividend", "yield",
   "trade", "trading", "buy", "sell", "broker", "market", "exchange",
   "bull market", "bear market", "volatility", "risk", "return", "roi",
   "financial advice", "investment advice", "recommend", "suggestion",
   "strategy", "allocation", "diversification", "asset", "wealth",
   "crypto", "cryptocurrency", "bitcoin", "real estate", "commodities",
   "securities", "equity", "debt", "capital", "finance", "financial",
   "money", "profit", "profits", "earnings", "income", "gains", "returns",
   "rich", "wealthy", "millionaire", "fortune", "cash", "savings",
   "insider", "tips", "secret", "guaranteed", "risk-free", "sure thing"].map String.data

/-- `disclaimer_keywords` (a Python set; membership via substring test). -/
def disclaimerKeywords : List (List Char) :=
  ["not financial advice", "not investment advice", "consult", "professional",
   "do your own research", "past performance", "risk", "disclaimer",
   "opinion only", "educational purposes", "seek advice", "qualified advisor",
   "investment professional", "financial planner", "due diligence"].map String.data

/-- `uncertainty_words` from `_check_specific_predictions`. -/
def uncertaintyWords : List (List Char) :=
  ["might", "could", "may", "possibly", "perhaps", "likely", "potentially"].map String.data

/-- `licensing_disclaimers` from `_check_unlicensed_advice`. -/
def licensingDisclaimers : List (List Char) :=
  ["not a licensed", "not a financial advisor", "not professional advice"].map String.data

/-! ### Issue strings -/

/-- Issue emitted by `_check_guaranteed_returns`. -/
def gIssue : List Char := ("Contains prohibited guaranteed return language").data

/-- Issue emitted by `_check_specific_predictions`. -/
def pIssue : List Char := ("Contains overly specific predictions without uncertainty language").data

/-- Issue emitted by `_check_disclaimers`. -/
def dIssue : List Char := ("Financial advice provided without required disclaimers").data

/-- Issue emitted by `_check_unlicensed_advice`. -/
def uIssue : List Char := ("Potential unlicensed financial advice - verify credentials").data

/-! ### Rule checkers (`_check_*` methods) -/

/-- The `for pattern: if re.search: append issue; break` loop of
`_check_guaranteed_returns`. -/
def checkGuaranteedReturnsAux (tl : List Char) : List RE → List (List Char)
  | [] => []
  | p :: rest => if search p tl then [gIssue] else checkGuaranteedReturnsAux tl rest

/-- `_check_guaranteed_returns(text)`. -/
def checkGuaranteedReturns (text : List Char) : List (List Char) :=
  checkGuaranteedReturnsAux (lowers text) guaranteedReturnPatterns

/-- `any(word in text_lower for word in uncertainty_words)`. -/
def hasUncertainty (tl : List Char) : Bool :=
  uncertaintyWords.any (fun w => isSubstr w tl)

/-- The pattern loop of `_check_specific_predictions`: on a match, the
text-global uncertainty test decides between emitting the issue (and
breaking) and moving to the next pattern. -/
def checkSpecificPredictionsAux (tl : List Char) : List RE → List (List Char)
  | [] => []
  | p :: rest =>
    if search p tl then
      if hasUncertainty tl then checkSpecificPredictionsAux tl rest else [pIssue]
    else checkSpecificPredictionsAux tl rest

/-- `_check_specific_predictions(text)`. -/
def checkSpecificPredictions (text : List Char) : List (List Char) :=
  checkSpecificPredictionsAux (lowers text) specificPredictionPatterns

/-- `_check_disclaimers(text)`. -/
def checkDisclaimers (text : List Char) : List (List Char) :=
  let tl := lowers text
  if adviceIndicators.any (fun p => search p tl) then
    if disclaimerKeywords.any (fun k => isSubstr k tl) then [] else [dIssue]
  else []

/-- `_check_unlicensed_advice(text)`. -/
def checkUnlicensedAdvice (text : List Char) : List (List Char) :=
  let tl := lowers text
  if (licensingPatterns.any (fun p => search p tl)) &&
     (adviceIndicators.any (fun p => search p tl)) then
    if licensingDisclaimers.any (fun k => isSubstr k tl) then [] else [uIssue]
  else []

/-! ### Topic classifier and external collaborators -/

/-- The injected `_llm_financial_classifier`: `Except.error` models a raised
exception, `Except.ok none` models a `None` ("no opinion") return. -/
def Classifier : Type := List Char → Except Unit (Option Bool)

/-- The Groq secondary-opinion call of `_llm_compliance_check`: it returns
the raw completion text; `Except.error` models a raised exception. Absent
(`none` at the use site) models a missing `GROQ_API_KEY`. -/
def SecondaryOpinion : Type := List Char → Except Unit (List Char)

/-- The spaCy risk-entity extractor `_get_spacy_risk_entities`; `none` at
the use site models `spacy_nlp is None` (spaCy unavailable). -/
def SpacyPipe : Type := List Char → List (List Char)

/-- Methods 2 and 3 of `_contains_financial_content` (the pattern
heuristics run when no classifier opinion is available). -/
def financialHeuristic (text : List Char) : Bool :=
  let tl := lowers text
  let financialKeywordCount := financialKeywords.countP (fun k => isSubstr k tl)
  let advicePatternCount := adviceIndicators.countP (fun p => search p tl)
  let hasPricePrediction := pricePredictionPatterns.any (fun p => search p tl)
  let hasFinancialContext := financialContexts.any (fun p => search p tl)
  decide (2 ≤ financialKeywordCount) || decide (1 ≤ advicePatternCount) ||
    hasPricePrediction || hasFinancialContext

/-- `_contains_financial_content(text)`: a configured classifier's definite
answer wins; a `None` answer or an exception falls back to the heuristics. -/
def containsFinancialContent (classifier : Option Classifier) (text : List Char) : Bool :=
  match classifier with
  | some f =>
    match f text with
    | Except.ok (some b) => b
    | Except.ok none => financialHeuristic text
    | Except.error _ => financialHeuristic text
  | none => financialHeuristic text

/-- Python `str.strip()` (whitespace at both ends). -/
def pyStrip (s : List Char) : List Char :=
  (((s.dropWhile isSpaceCh).reverse).dropWhile isSpaceCh).reverse

/-- Python `str.replace(pat, rep)` for a nonempty literal `pat`:
left-to-right, non-overlapping. -/
def replaceAllLit (pat rep : List Char) : List Char → List Char
  | [] => []
  | c :: t =>
    if !pat.isEmpty && pfxEq pat (c :: t) then
      rep ++ replaceAllLit pat rep (List.drop (pat.length - 1) t)
    else c :: replaceAllLit pat rep t
termination_by s => s.length
decreasing_by
  · simp only [List.length_drop, List.length_cons]
    omega
  · simp only [List.length_cons]
    omega

/-- `_llm_compliance_check(text)`: without an API key (callback `none`) or
on any exception it contributes no issues; a `VIOLATIONS`-prefixed response
becomes a single issue string. -/
def llmComplianceCheck (secondary : Option SecondaryOpinion) (text : List Char) :
    List (List Char) :=
  match secondary with
  | none => []
  | some f =>
    match f text with
    | Except.error _ => []
    | Except.ok content =>
      let resp := pyStrip content
      if pfxEq (("VIOLATIONS").data) resp then
        [("LLM detected: ").data ++ pyStrip (replaceAllLit (("VIOLATIONS:").data) [] resp)]
      else []

/-! ### `re.sub` for the remediation patterns

All four substitution regexes of `_suggest_compliant_version`
(`\bguarantee[sd]?\b`, `\bcannot lose\b`, `\bwill hit\b`, `\bwill be\b`,
all with `re.IGNORECASE`) are word-bounded literal families whose literals
begin and end with word characters, so `\b` amounts to: the previous
character is not a word character, and the character after the literal is
not a word character. `guarantee[sd]?` is greedy, which the literal order
`guaranteed, guarantees, guarantee` reproduces. Matching is located in the
original string (replacements are not rescanned), which `subW` mirrors by
continuing after the matched span with `pw := true` (all literals end in a
word character). -/

/-- `a` is a prefix of `b` up to lowercasing `b` (IGNORECASE literal match;
the literals are stored lowercase). -/
def ciPfx : List Char → List Char → Bool
  | [], _ => true
  | _ :: _, [] => false
  | a :: as, b :: bs => a == lowerChar b && ciPfx as bs

/-- One word-bounded IGNORECASE literal matches at the head of `s`
(the leading `\b` is checked by the caller via `pw`). -/
def matchOneW (l s : List Char) : Bool :=
  !l.isEmpty && ciPfx l s && !(headIsWord (List.drop l.length s))

/-- First literal of the family matching at the head of `s`; returns the
matched length and the replacement. `pw = true` (previous char is a word
character) makes the leading `\b` fail. -/
def matchAtW (lits : List (List Char × List Char)) (pw : Bool) (s : List Char) :
    Option (Nat × List Char) :=
  if pw then none
  else lits.findSome? (fun lr => if matchOneW lr.1 s then some (lr.1.length, lr.2) else none)

/-- `re.sub` scanner for one word-bounded IGNORECASE literal family,
fuel-indexed so that it is structurally recursive (each step consumes at
least one input character, so any fuel dominating the input length gives
the untruncated scan): leftmost non-overlapping matches are replaced, and
scanning continues in the original input after each matched span. -/
def subWF (lits : List (List Char × List Char)) : Nat → Bool → List Char → List Char
  | 0, _, s => s
  | fuel + 1, pw, s =>
    match matchAtW lits pw s with
    | some nr => nr.2 ++ subWF lits fuel true (List.drop nr.1 s)
    | none =>
      match s with
      | [] => []
      | c :: t => c :: subWF lits fuel (isWordChar c) t

/-- `re.sub` for one word-bounded IGNORECASE literal family. -/
def subW (lits : List (List Char × List Char)) (pw : Bool) (s : List Char) : List Char :=
  subWF lits s.length pw s

/-- Literal family of `re.sub(r"\bguarantee[sd]?\b", "potentially", ., re.IGNORECASE)`. -/
def guaranteeSubs : List (List Char × List Char) :=
  [(("guaranteed").data, ("potentially").data),
   (("guarantees").data, ("potentially").data),
   (("guarantee").data, ("potentially").data)]

/-- Literal family of `re.sub(r"\bcannot lose\b", "may have lower risk", ., re.IGNORECASE)`. -/
def cannotLoseSubs : List (List Char × List Char) :=
  [(("cannot lose").data, ("may have lower risk").data)]

/-- Literal family of `re.sub(r"\bwill hit\b", "might reach", ., re.IGNORECASE)`. -/
def willHitSubs : List (List Char × List Char) :=
  [(("will hit").data, ("might reach").data)]

/-- Literal family of `re.sub(r"\bwill be\b", "could be", ., re.IGNORECASE)`. -/
def willBeSubs : List (List Char × List Char) :=
  [(("will be").data, ("could be").data)]

/-- The disclaimer paragraph `_suggest_compliant_version` appends. -/
def disclaimerAppendText : List Char :=
  ("\n\nDisclaimer: This is not financial advice. Please consult with a qualified financial professional before making investment decisions.").data

/-- The disclaimer paragraph minus its leading newline; `disclaimerAppendText`
is definitionally `'\n' :: disclaimerTailText`, a shape used when proving
that the substitutions never touch the appended paragraph. -/
def disclaimerTailText : List Char :=
  ("\nDisclaimer: This is not financial advice. Please consult with a qualified financial professional before making investment decisions.").data

/-- `_suggest_compliant_version(original_text, issues)`: append the
disclaimer paragraph if some issue mentions "disclaimer", then soften
guarantee language if some issue mentions "guaranteed", then hedge
predictions if some issue mentions "specific prediction". -/
def suggestCompliantVersion (originalText : List Char) (issues : List (List Char)) :
    List Char :=
  let f1 := if issues.any (fun i => isSubstr (("disclaimer").data) i) then
      originalText ++ disclaimerAppendText
    else originalText
  let f2 := if issues.any (fun i => isSubstr (("guaranteed").data) i) then
      subW cannotLoseSubs false (subW guaranteeSubs false f1)
    else f1
  if issues.any (fun i => isSubstr (("specific prediction").data) i) then
    subW willBeSubs false (subW willHitSubs false f2)
  else f2

/-! ### The `_validate` pipeline -/

/-- The constructor flags of `FinancialComplianceValidator` (defaults as in
the source; `strict_compliance` is stored but never read by `_validate`). -/
structure ComplianceConfig where
  require_disclaimers : Bool := true
  check_guaranteed_returns : Bool := true
  check_specific_predictions : Bool := true
  check_unlicensed_advice : Bool := true
  use_llm_verification : Bool := true
  strict_compliance : Bool := false
  fast_mode : Bool := false

/-- `ValidationResult`: `PassResult`, or `FailResult` with its
`error_message` and `fix_value` fields. -/
inductive ValidationResult where
  | PassResult : ValidationResult
  | FailResult (error_message : List Char) (fix_value : List Char) : ValidationResult
  deriving DecidableEq

/-- `sep.join(xs)`. -/
def joinSep (sep : List Char) : List (List Char) → List Char
  | [] => []
  | [x] => x
  | x :: y :: xs => x ++ sep ++ joinSep sep (y :: xs)

/-- The spaCy issue string
`f"Enhanced NLP analysis detected: {', '.join(spacy_entities[:3])}"`. -/
def spacyMsg (ents : List (List Char)) : List Char :=
  ("Enhanced NLP analysis detected: ").data ++ joinSep ((", ").data) (ents.take 3)

/-- Stage 2 of `_validate`: the flag-gated rule checkers, concatenated in
source order. -/
def localIssues (cfg : ComplianceConfig) (value : List Char) : List (List Char) :=
  (if cfg.check_guaranteed_returns then checkGuaranteedReturns value else []) ++
  (if cfg.check_specific_predictions then checkSpecificPredictions value else []) ++
  (if cfg.require_disclaimers then checkDisclaimers value else []) ++
  (if cfg.check_unlicensed_advice then checkUnlicensedAdvice value else [])

/-- Observable outcome of one `_validate` call: the returned
`ValidationResult`, the final `compliance_issues` list, and whether the
stage-2.5 branch that calls `_llm_compliance_check` was taken. -/
structure ValidateOutcome where
  result : ValidationResult
  issues : List (List Char)
  llmInvoked : Bool

/-- `_validate(value, metadata)`. Empty input passes; non-financial content
passes; otherwise the flag-gated checkers run, stage 2.5 decides whether to
consult the LLM (fast-mode short-circuit), stage 2.6 optionally adds a
spaCy issue, and a nonempty issue list yields `FailResult` with the joined
message and the remediated text. -/
def validateRun (cfg : ComplianceConfig) (classifier : Option Classifier)
    (secondary : Option SecondaryOpinion) (spacyNlp : Option SpacyPipe)
    (value : List Char) : ValidateOutcome :=
  if value.isEmpty then ⟨ValidationResult.PassResult, [], false⟩
  else if !(containsFinancialContent classifier value) then
    ⟨ValidationResult.PassResult, [], false⟩
  else
    let stage2 := localIssues cfg value
    let llmPair :=
      if cfg.fast_mode && !stage2.isEmpty then ([], false)
      else if cfg.use_llm_verification && (!cfg.fast_mode || stage2.isEmpty) then
        (llmComplianceCheck secondary value, true)
      else ([], false)
    let issues1 := stage2 ++ llmPair.1
    let spacyEntities :=
      if !cfg.fast_mode then (match spacyNlp with | none => [] | some f => f value) else []
    let issues :=
      if !cfg.fast_mode && !spacyEntities.isEmpty then issues1 ++ [spacyMsg spacyEntities]
      else issues1
    if !issues.isEmpty then
      ⟨ValidationResult.FailResult
          (("Financial compliance violations: ").data ++ joinSep (("; ").data) issues)
          (suggestCompliantVersion value issues),
        issues, llmPair.2⟩
    else ⟨ValidationResult.PassResult, issues, llmPair.2⟩

/-- The default configuration (constructor defaults). -/
def defaultCfg : ComplianceConfig := {}

/-- `re` has no match starting at any suffix of `s` (under any preceding
word-character status). -/
def deadOn (re : RE) (s : List Char) : Prop :=
  ∀ (pw : Bool) (s' : List Char), s' <:+ s → mat re pw s' = []

/-- Follows the claim's words (C9): `price_prediction_patterns` with the
uppercase-requiring patterns (`\b[A-Z]{2,6}\s+will...` and
`\b[A-Z]+\s+(stock|shares?)...`) removed. -/
def pricePredictionPatternsPruned : List RE := [ppp2, ppp3, ppp4, ppp5]

/-- Follows the claim's words (C9): `financial_contexts` with the
uppercase-requiring patterns (`...\b[A-Z]{2,6}\b` and `\b[A-Z]{2,6}\b...`)
removed. -/
def financialContextsPruned : List RE := [fc3, fc4, fc5]

/-- Follows the claim's words (C9): the financial-content heuristics of
`_contains_financial_content` with the uppercase-requiring patterns removed
from both pattern lists. -/
def financialHeuristicPruned (text : List Char) : Bool :=
  let tl := lowers text
  let financialKeywordCount := financialKeywords.countP (fun k => isSubstr k tl)
  let advicePatternCount := adviceIndicators.countP (fun p => search p tl)
  let hasPricePrediction := pricePredictionPatternsPruned.any (fun p => search p tl)
  let hasFinancialContext := financialContextsPruned.any (fun p => search p tl)
  decide (2 ≤ financialKeywordCount) || decide (1 ≤ advicePatternCount) ||
    hasPricePrediction || hasFinancialContext

/-! ### Helper lemmas -/

theorem ciPfx_length_le : ∀ a b : List Char, ciPfx a b = true → a.length ≤ b.length := by
  intro a
  induction a with
  | nil => intro b _; simp
  | cons x xs ih =>
    intro b h
    cases b with
    | nil => simp [ciPfx] at h
    | cons y ys =>
      simp only [ciPfx, Bool.and_eq_true] at h
      simpa using Nat.succ_le_succ (ih ys h.2)

/-- A successful family match consumes at least one and at most all of the
remaining characters. -/
theorem matchAtW_bounds {lits : List (List Char × List Char)} {pw : Bool}
    {s : List Char} {n : Nat} {rep : List Char}
    (h : matchAtW lits pw s = some (n, rep)) : 1 ≤ n ∧ n ≤ s.length := by
  unfold matchAtW at h
  split at h
  · exact absurd h (by simp)
  · obtain ⟨lr, _, hlr⟩ := List.exists_of_findSome?_eq_some h
    split at hlr
    · next hm =>
      simp only [Option.some.injEq, Prod.mk.injEq] at hlr
      simp only [matchOneW, Bool.and_eq_true] at hm
      refine ⟨?_, ?_⟩
      · rw [← hlr.1]
        have hne : lr.1 ≠ [] := by
          intro hnil
          rw [hnil] at hm
          simp at hm
        exact Nat.one_le_iff_ne_zero.mpr (by simpa using hne)
      · rw [← hlr.1]
        exact ciPfx_length_le _ _ hm.1.2
    · exact absurd hlr (by simp)

/-- If some guaranteed-return pattern matches, the break-on-first-match loop
of `_check_guaranteed_returns` emits exactly the single issue. -/
theorem checkGuaranteedReturnsAux_of_any (tl : List Char) :
    ∀ pats : List RE, pats.any (fun p => search p tl) = true →
      checkGuaranteedReturnsAux tl pats = [gIssue] := by
  intro pats
  induction pats with
  | nil => intro h; simp at h
  | cons p rest ih =>
    intro h
    unfold checkGuaranteedReturnsAux
    by_cases hs : search p tl = true
    · simp [hs]
    · have hs' : search p tl = false := by simpa using hs
      simp only [List.any_cons, Bool.or_eq_true] at h
      rcases h with h | h
      · exact absurd h hs
      · simp [hs', ih h]

/-- A nonempty result of the `_check_specific_predictions` loop implies a
matching pattern and the absence of uncertainty words. -/
theorem checkSpecificPredictionsAux_ne_nil (tl : List Char) :
    ∀ pats : List RE, checkSpecificPredictionsAux tl pats ≠ [] →
      pats.any (fun p => search p tl) = true ∧ hasUncertainty tl = false := by
  intro pats
  induction pats with
  | nil => intro h; simp [checkSpecificPredictionsAux] at h
  | cons p rest ih =>
    intro h
    unfold checkSpecificPredictionsAux at h
    by_cases hs : search p tl = true
    · rw [if_pos hs] at h
      by_cases hu : hasUncertainty tl = true
      · rw [if_pos hu] at h
        exact absurd hu (by simp [(ih h).2])
      · have hu' : hasUncertainty tl = false := by simpa using hu
        exact ⟨by simp [hs], hu'⟩
    · have hs' : search p tl = false := by simpa using hs
      rw [if_neg hs] at h
      refine ⟨?_, (ih h).2⟩
      simp [List.any_cons, (ih h).1]

/-- With all collaborators absent and financial content detected, the final
issue list is exactly the local checkers' output, and the outcome fails
with the remediated text precisely when that list is nonempty. -/
theorem validateRun_noCb (cfg : ComplianceConfig) (value : List Char)
    (hne : value.isEmpty = false)
    (hfin : containsFinancialContent none value = true) :
    (validateRun cfg none none none value).issues = localIssues cfg value ∧
    (localIssues cfg value ≠ [] →
      (validateRun cfg none none none value).result =
        ValidationResult.FailResult
          (("Financial compliance violations: ").data ++
            joinSep (("; ").data) (localIssues cfg value))
          (suggestCompliantVersion value (localIssues cfg value))) := by
  have hllm : llmComplianceCheck none value = [] := rfl
  cases hloc : localIssues cfg value with
  | nil =>
    unfold validateRun
    rw [hne, hfin]
    cases hfast : cfg.fast_mode <;> cases huse : cfg.use_llm_verification <;>
      simp [hfast, huse, hloc, hllm]
  | cons i rest =>
    unfold validateRun
    rw [hne, hfin]
    cases hfast : cfg.fast_mode <;> cases huse : cfg.use_llm_verification <;>
      simp [hfast, huse, hloc, hllm]

/-! ### Claim theorems -/

/-- C7: for every text, calling the remediation `_suggest_compliant_version`
with an empty issue list returns the text unchanged, byte-for-byte. -/
theorem C7_remediate_empty_issues_identity (text : List Char) :
    suggestCompliantVersion text [] = text := by
  simp [suggestCompliantVersion]

/-- C10: for every text whose lowercased form contains the substring "risk"
(also inside words like "risky" or "risk-free"), `_check_disclaimers` emits
no issue, because disclaimer detection is a substring-containment test over
`disclaimer_keywords`, which includes the bare word "risk". -/
theorem C10_risk_substring_suppresses_disclaimer_issue (text : List Char)
    (h : isSubstr (("risk").data) (lowers text) = true) :
    checkDisclaimers text = [] := by
  unfold checkDisclaimers
  have hd : disclaimerKeywords.any (fun k => isSubstr k (lowers text)) = true := by
    rw [List.any_eq_true]
    exact ⟨("risk").data, by decide, h⟩
  simp [hd]

/-- C10 witness: "You should buy risky tech stocks now" contains an advice
indicator and the substring "risk", and indeed gets no disclaimer issue. -/
theorem C10_witness :
    isSubstr (("risk").data) (lowers (("You should buy risky tech stocks now").data)) = true ∧
    adviceIndicators.any
      (fun p => search p (lowers (("You should buy risky tech stocks now").data))) = true ∧
    checkDisclaimers (("You should buy risky tech stocks now").data) = [] :=
  ⟨by decide, by decide,
    C10_risk_substring_suppresses_disclaimer_issue _ (by decide)⟩

/-- C6: the specific-prediction checker passes
"Bitcoin might hit $100,000 by December." and fails
"Bitcoin will hit $100,000 by December."; and in general it emits an issue
only when some `specific_prediction` pattern matches the lowercased text and
no uncertainty word occurs anywhere in it. -/
theorem C6_specific_prediction_checker :
    checkSpecificPredictions (("Bitcoin might hit $100,000 by December.").data) = [] ∧
    checkSpecificPredictions (("Bitcoin will hit $100,000 by December.").data) = [pIssue] ∧
    ∀ text : List Char, checkSpecificPredictions text ≠ [] →
      specificPredictionPatterns.any (fun p => search p (lowers text)) = true ∧
      hasUncertainty (lowers text) = false := by
  refine ⟨by decide, by decide, ?_⟩
  intro text h
  exact checkSpecificPredictionsAux_ne_nil (lowers text) specificPredictionPatterns h

/-- C6 witness: the checker's issue on a concrete flagged text comes with a
matching pattern and no uncertainty words. -/
theorem C6_witness :
    specificPredictionPatterns.any
      (fun p => search p (lowers (("Tesla will be worth exactly $2,000 soon.").data))) = true ∧
    hasUncertainty (lowers (("Tesla will be worth exactly $2,000 soon.").data)) = false :=
  C6_specific_prediction_checker.2.2 (("Tesla will be worth exactly $2,000 soon.").data)
    (by decide)

/-- C1 counterexample: "Totally zero-risk plan." matches a guaranteed-return
pattern (`\b(risk[- ]free|no[- ]risk|zero[- ]risk)\b`) yet `_validate` with
the default configuration (guaranteed-return check enabled, callbacks
absent) returns `PassResult` with an empty issue list, because the stage-1
topic gate classifies the text as non-financial. -/
theorem C1_cex :
    guaranteedReturnPatterns.any
      (fun p => search p (lowers (("Totally zero-risk plan.").data))) = true ∧
    defaultCfg.check_guaranteed_returns = true ∧
    (validateRun defaultCfg none none none (("Totally zero-risk plan.").data)).result =
      ValidationResult.PassResult ∧
    (validateRun defaultCfg none none none (("Totally zero-risk plan.").data)).issues = [] := by
  refine ⟨by decide, rfl, ?_, ?_⟩ <;> decide

/-- C1 (amended): for every text that matches a guaranteed-return pattern
AND that `_contains_financial_content` classifies as financial, `_validate`
with `check_guaranteed_returns` enabled and external callbacks absent
returns `FailResult`, and the issue list contains the guaranteed-return
issue. -/
theorem C1_guaranteed_return_fails (cfg : ComplianceConfig) (value : List Char)
    (hflag : cfg.check_guaranteed_returns = true)
    (hfin : containsFinancialContent none value = true)
    (hmatch : guaranteedReturnPatterns.any (fun p => search p (lowers value)) = true) :
    (∃ msg fix, (validateRun cfg none none none value).result =
      ValidationResult.FailResult msg fix) ∧
    gIssue ∈ (validateRun cfg none none none value).issues := by
  have hne : value.isEmpty = false := by
    cases value with
    | nil => exact absurd hfin (by decide)
    | cons c t => rfl
  have hchk : checkGuaranteedReturns value = [gIssue] :=
    checkGuaranteedReturnsAux_of_any (lowers value) guaranteedReturnPatterns hmatch
  have hmem : gIssue ∈ localIssues cfg value := by
    unfold localIssues
    rw [hflag, if_pos rfl, hchk]
    simp
  have hnil : localIssues cfg value ≠ [] := by
    intro hn
    rw [hn] at hmem
    exact absurd hmem (List.not_mem_nil _)
  obtain ⟨hiss, hres⟩ := validateRun_noCb cfg value hne hfin
  refine ⟨⟨_, _, hres hnil⟩, ?_⟩
  rw [hiss]
  exact hmem

/-- C1 witness: "Stocks and bonds guarantee returns." is financial, matches
a guaranteed-return pattern, and fails with the guaranteed-return issue. -/
theorem C1_witness :
    (∃ msg fix,
      (validateRun defaultCfg none none none
        (("Stocks and bonds guarantee returns.").data)).result =
        ValidationResult.FailResult msg fix) ∧
    gIssue ∈ (validateRun defaultCfg none none none
        (("Stocks and bonds guarantee returns.").data)).issues :=
  C1_guaranteed_return_fails defaultCfg (("Stocks and bonds guarantee returns.").data)
    rfl (by decide) (by decide)

/-- C4: for every financial text, if `fast_mode` is on and the local rule
checkers produced at least one issue, the stage-2.5 branch that calls
`_llm_compliance_check` is not taken; if `fast_mode` is off, or the local
checkers produced zero issues, it is taken exactly when
`use_llm_verification` is true. -/
theorem C4_fast_mode_policy (cfg : ComplianceConfig) (classifier : Option Classifier)
    (secondary : Option SecondaryOpinion) (spacyNlp : Option SpacyPipe)
    (value : List Char) (hne : value.isEmpty = false)
    (hfin : containsFinancialContent classifier value = true) :
    (cfg.fast_mode = true → localIssues cfg value ≠ [] →
      (validateRun cfg classifier secondary spacyNlp value).llmInvoked = false) ∧
    ((cfg.fast_mode = false ∨ localIssues cfg value = []) →
      (validateRun cfg classifier secondary spacyNlp value).llmInvoked =
        cfg.use_llm_verification) := by
  unfold validateRun
  rw [hne, hfin]
  cases hloc : localIssues cfg value with
  | nil =>
    cases hfast : cfg.fast_mode <;> cases huse : cfg.use_llm_verification <;>
      constructor <;> intro h <;>
      simp_all [apply_ite ValidateOutcome.llmInvoked]
  | cons i rest =>
    cases hfast : cfg.fast_mode <;> cases huse : cfg.use_llm_verification <;>
      constructor <;> intro h <;>
      simp_all [apply_ite ValidateOutcome.llmInvoked]

/-- C4 witness: with `fast_mode` on and a guaranteed-return issue found
locally, the LLM branch is not taken; with `fast_mode` off on the same
text, it is taken (default `use_llm_verification = true`). -/
theorem C4_witness :
    (validateRun { defaultCfg with fast_mode := true } none none none
      (("Investing in stocks is risk-free.").data)).llmInvoked = false ∧
    (validateRun defaultCfg none none none
      (("Investing in stocks is risk-free.").data)).llmInvoked = true := by
  constructor
  · exact (C4_fast_mode_policy { defaultCfg with fast_mode := true } none none none
      (("Investing in stocks is risk-free.").data) rfl (by decide)).1 rfl (by decide)
  · exact (C4_fast_mode_policy defaultCfg none none none
      (("Investing in stocks is risk-free.").data) rfl (by decide)).2 (Or.inl rfl)

/-- C8: a raising classifier callback is caught inside
`_contains_financial_content` (falling back to the pattern heuristics), a
raising secondary-opinion call is caught inside `_llm_compliance_check`
(contributing no issues), and the whole `_validate` run with raising
collaborators equals the run with the collaborators absent — no error
reaches the caller. -/
theorem C8_collaborator_errors_contained (cfg : ComplianceConfig)
    (spacyNlp : Option SpacyPipe) (value : List Char)
    (fcls : Classifier) (fsec : SecondaryOpinion)
    (hc : fcls value = Except.error ()) (hs : fsec value = Except.error ()) :
    containsFinancialContent (some fcls) value = financialHeuristic value ∧
    llmComplianceCheck (some fsec) value = [] ∧
    validateRun cfg (some fcls) (some fsec) spacyNlp value =
      validateRun cfg none none spacyNlp value := by
  have h1 : containsFinancialContent (some fcls) value = financialHeuristic value := by
    unfold containsFinancialContent
    simp only [hc]
  have h2 : llmComplianceCheck (some fsec) value = [] := by
    unfold llmComplianceCheck
    simp only [hs]
  have h3 : containsFinancialContent none value = financialHeuristic value := rfl
  have h4 : llmComplianceCheck none value = [] := rfl
  refine ⟨h1, h2, ?_⟩
  unfold validateRun
  rw [h1, h3, h2, h4]

/-- C8 witness: concrete always-raising collaborators on a concrete text. -/
theorem C8_witness :
    containsFinancialContent (some (fun _ => Except.error ()))
      (("You should buy stocks today").data) =
      financialHeuristic (("You should buy stocks today").data) ∧
    llmComplianceCheck (some (fun _ => Except.error ()))
      (("You should buy stocks today").data) = [] ∧
    validateRun defaultCfg (some (fun _ => Except.error ()))
      (some (fun _ => Except.error ())) none (("You should buy stocks today").data) =
      validateRun defaultCfg none none none (("You should buy stocks today").data) :=
  C8_collaborator_errors_contained defaultCfg none (("You should buy stocks today").data)
    (fun _ => Except.error ()) (fun _ => Except.error ()) rfl rfl

/-- C2 (the code evaluated at the failing input): "Investing in stocks is
risk-free." fails solely with the guaranteed-return issue, its remediation
returns the text unchanged (no substitution touches "risk-free"), and
re-validating the remediated text re-reports the very same guaranteed-return
issue — contradicting the progress guarantee. -/
theorem C2_progress_guarantee_fails_eval :
    (validateRun defaultCfg none none none
      (("Investing in stocks is risk-free.").data)).issues = [gIssue] ∧
    suggestCompliantVersion (("Investing in stocks is risk-free.").data) [gIssue] =
      (("Investing in stocks is risk-free.").data) ∧
    (validateRun defaultCfg none none none
      (suggestCompliantVersion (("Investing in stocks is risk-free.").data) [gIssue])).issues =
      [gIssue] := by
  refine ⟨?_, ?_, ?_⟩ <;> decide

/-- C3 counterexample: on "This investment is guaranteed and risk-free, you
cannot lose money." with a guaranteed-return issue, remediation yields
"This investment is potentially and risk-free, you may have lower risk
money.": "guaranteed" became "potentially" (not "potentially offer"),
"risk-free" survives unreplaced (not "lower risk"), and "cannot lose"
became "may have lower risk" (not "may have lower risk of loss"). -/
theorem C3_cex :
    suggestCompliantVersion
      (("This investment is guaranteed and risk-free, you cannot lose money.").data)
      [gIssue] =
      (("This investment is potentially and risk-free, you may have lower risk money.").data) ∧
    isSubstr (("potentially offer").data)
      (suggestCompliantVersion
        (("This investment is guaranteed and risk-free, you cannot lose money.").data)
        [gIssue]) = false ∧
    isSubstr (("risk-free").data)
      (suggestCompliantVersion
        (("This investment is guaranteed and risk-free, you cannot lose money.").data)
        [gIssue]) = true ∧
    isSubstr (("may have lower risk of loss").data)
      (suggestCompliantVersion
        (("This investment is guaranteed and risk-free, you cannot lose money.").data)
        [gIssue]) = false := by
  refine ⟨?_, ?_, ?_, ?_⟩ <;> decide

/-- C3 (amended): when the issue list contains a guaranteed-return issue
(and no disclaimer or specific-prediction issue), remediation is exactly
the two case-insensitive word-bounded substitutions
guarantee/guaranteed/guarantees → "potentially" and "cannot lose" →
"may have lower risk"; "risk-free" and "will definitely" get no
substitution, as the concrete conjunct shows. -/
theorem C3_remediation_substitutions (text : List Char) (issues : List (List Char))
    (hg : issues.any (fun i => isSubstr (("guaranteed").data) i) = true)
    (hd : issues.any (fun i => isSubstr (("disclaimer").data) i) = false)
    (hp : issues.any (fun i => isSubstr (("specific prediction").data) i) = false) :
    suggestCompliantVersion text issues =
      subW cannotLoseSubs false (subW guaranteeSubs false text) ∧
    subW cannotLoseSubs false (subW guaranteeSubs false
      (("We GUARANTEE gains; you cannot lose money; this is risk-free and will definitely profit.").data)) =
      (("We potentially gains; you may have lower risk money; this is risk-free and will definitely profit.").data) := by
  constructor
  · unfold suggestCompliantVersion
    rw [hg, hd, hp]
    simp
  · decide

/-- C3 witness: the amended theorem applied at a concrete text and issue
list containing only the guaranteed-return issue. -/
theorem C3_witness :
    suggestCompliantVersion (("Bonds guarantee income.").data) [gIssue] =
      subW cannotLoseSubs false (subW guaranteeSubs false (("Bonds guarantee income.").data)) :=
  (C3_remediation_substitutions (("Bonds guarantee income.").data) [gIssue]
    (by decide) (by decide) (by decide)).1

/-- A case-insensitive literal prefix longer than `a` must reach (and hence
contain) the newline that follows `a`. -/
theorem ciPfx_nl_of_long : ∀ (l a d : List Char), ciPfx l (a ++ '\n' :: d) = true →
    a.length < l.length → '\n' ∈ l := by
  intro l a
  induction a generalizing l with
  | nil =>
    intro d h hlen
    cases l with
    | nil => simp at hlen
    | cons x xs =>
      simp only [List.nil_append, ciPfx, Bool.and_eq_true, beq_iff_eq] at h
      have hx : x = '\n' := by rw [h.1]; decide
      rw [hx]
      exact List.mem_cons_self _ _
  | cons c as ih =>
    intro d h hlen
    cases l with
    | nil => simp at hlen
    | cons x xs =>
      simp only [List.cons_append, ciPfx, Bool.and_eq_true] at h
      simp only [List.length_cons, Nat.add_lt_add_iff_right] at hlen
      exact List.mem_cons_of_mem _ (ih xs d h.2 hlen)

/-- A word-bounded literal match found at the start of `a ++ '\n' :: d`
lies entirely within `a` when no literal of the family contains a
newline. -/
theorem matchAtW_span {lits : List (List Char × List Char)} {pw : Bool}
    {a d : List Char} {n : Nat} {rep : List Char}
    (hnl : ∀ lr ∈ lits, '\n' ∈ lr.1 → False)
    (h : matchAtW lits pw (a ++ '\n' :: d) = some (n, rep)) : n ≤ a.length := by
  unfold matchAtW at h
  split at h
  · exact absurd h (by simp)
  · obtain ⟨lr, hmem, hlr⟩ := List.exists_of_findSome?_eq_some h
    split at hlr
    · next hm =>
      simp only [Option.some.injEq, Prod.mk.injEq] at hlr
      simp only [matchOneW, Bool.and_eq_true] at hm
      rw [← hlr.1]
      by_contra hgt
      push_neg at hgt
      exact hnl lr hmem (ciPfx_nl_of_long lr.1 a d hm.1.2 hgt)
    · exact absurd hlr (by simp)

/-- Lift a bounded-drop no-match fact to all suffixes. -/
theorem matchAtW_none_of_forall_drop {lits : List (List Char × List Char)}
    {l : List Char}
    (H : ∀ k, k ≤ l.length → ∀ pw : Bool, matchAtW lits pw (l.drop k) = none) :
    ∀ s', s' <:+ l → ∀ pw : Bool, matchAtW lits pw s' = none := by
  intro s' hs pw
  obtain ⟨t, ht⟩ := hs
  have hdrop : s' = l.drop t.length := by rw [← ht, List.drop_left]
  rw [hdrop]
  exact H t.length (by rw [← ht]; simp) pw

/-- On a string none of whose positions matches the family, `subWF` is the
identity for every fuel. -/
theorem subWF_id_on (lits : List (List Char × List Char)) (l : List Char)
    (H : ∀ s', s' <:+ l → ∀ pw : Bool, matchAtW lits pw s' = none) :
    ∀ (fuel : Nat) (pw : Bool) (s' : List Char), s' <:+ l →
      subWF lits fuel pw s' = s' := by
  intro fuel
  induction fuel with
  | zero => intro pw s' _; rfl
  | succ k ih =>
    intro pw s' hs
    simp only [subWF, H s' hs pw]
    cases s' with
    | nil => rfl
    | cons c t =>
      show c :: subWF lits k (isWordChar c) t = c :: t
      rw [ih (isWordChar c) t ((List.suffix_cons c t).trans hs)]

/-- The scanner preserves a `'\n' :: d` suffix in which no family literal
matches, for every fuel: the output is some prefix followed by the intact
suffix. -/
theorem subWF_append (lits : List (List Char × List Char))
    (hnl : ∀ lr ∈ lits, '\n' ∈ lr.1 → False) (d : List Char)
    (H : ∀ s', s' <:+ ('\n' :: d) → ∀ pw : Bool, matchAtW lits pw s' = none) :
    ∀ (fuel : Nat) (pw : Bool) (a : List Char),
      ∃ b, subWF lits fuel pw (a ++ '\n' :: d) = b ++ '\n' :: d := by
  intro fuel
  induction fuel with
  | zero => intro pw a; exact ⟨a, rfl⟩
  | succ k ih =>
    intro pw a
    cases a with
    | nil =>
      exact ⟨[], subWF_id_on lits ('\n' :: d) H (k + 1) pw ('\n' :: d) (List.suffix_refl _)⟩
    | cons c as =>
      cases hm : matchAtW lits pw ((c :: as) ++ '\n' :: d) with
      | some nr =>
        obtain ⟨n, rep⟩ := nr
        have hspan : n ≤ (c :: as).length := matchAtW_span hnl hm
        have hdrop : ((c :: as) ++ '\n' :: d).drop n = (c :: as).drop n ++ '\n' :: d :=
          List.drop_append_of_le_length hspan
        obtain ⟨b, hb⟩ := ih true ((c :: as).drop n)
        refine ⟨rep ++ b, ?_⟩
        simp only [subWF, hm, hdrop, hb, List.append_assoc]
      | none =>
        obtain ⟨b, hb⟩ := ih (isWordChar c) as
        refine ⟨c :: b, ?_⟩
        simp only [subWF, hm]
        show c :: subWF lits k (isWordChar c) (as ++ '\n' :: d) = (c :: b) ++ '\n' :: d
        rw [hb]
        rfl

/-- Suffix preservation for `subW` with the disclaimer paragraph's tail. -/
theorem subW_append_suffix (lits : List (List Char × List Char))
    (hnl : ∀ lr ∈ lits, '\n' ∈ lr.1 → False)
    (H : ∀ s', s' <:+ ('\n' :: disclaimerTailText) → ∀ pw : Bool,
      matchAtW lits pw s' = none)
    (pw : Bool) (a : List Char) :
    ∃ b, subW lits pw (a ++ '\n' :: disclaimerTailText) =
      b ++ '\n' :: disclaimerTailText :=
  subWF_append lits hnl disclaimerTailText H _ pw a

/-- C5 counterexample: with a disclaimer issue present, remediation appends
the disclaimer paragraph even though a disclaimer phrase ("not financial
advice") is already present in the text — so "appends only if no disclaimer
phrase is already present" fails. -/
theorem C5_cex :
    disclaimerKeywords.any
      (fun k => isSubstr k (lowers (("This is not financial advice.").data))) = true ∧
    suggestCompliantVersion (("This is not financial advice.").data) [dIssue] =
      (("This is not financial advice.").data) ++ disclaimerAppendText ∧
    suggestCompliantVersion (("This is not financial advice.").data) [dIssue] ≠
      (("This is not financial advice.").data) := by
  refine ⟨?_, ?_, ?_⟩ <;> decide

set_option maxRecDepth 10000 in
/-- C5 (amended): whenever the issue list contains a disclaimer issue,
remediation appends the fixed disclaimer paragraph — unconditionally, with
no check whether a disclaimer phrase is already present (the append is
applied before the guarantee/prediction substitutions, and those
substitutions never alter the appended paragraph) — so the remediated text
always ends with the paragraph. -/
theorem C5_disclaimer_always_appended (text : List Char) (issues : List (List Char))
    (hd : issues.any (fun i => isSubstr (("disclaimer").data) i) = true) :
    disclaimerAppendText <:+ suggestCompliantVersion text issues := by
  have hD : disclaimerAppendText = '\n' :: disclaimerTailText := rfl
  have hg_nl : ∀ lr ∈ guaranteeSubs, '\n' ∈ lr.1 → False := by decide
  have hc_nl : ∀ lr ∈ cannotLoseSubs, '\n' ∈ lr.1 → False := by decide
  have hw_nl : ∀ lr ∈ willHitSubs, '\n' ∈ lr.1 → False := by decide
  have hb_nl : ∀ lr ∈ willBeSubs, '\n' ∈ lr.1 → False := by decide
  have Hg : ∀ s', s' <:+ ('\n' :: disclaimerTailText) → ∀ pw : Bool,
      matchAtW guaranteeSubs pw s' = none :=
    matchAtW_none_of_forall_drop (by decide)
  have Hc : ∀ s', s' <:+ ('\n' :: disclaimerTailText) → ∀ pw : Bool,
      matchAtW cannotLoseSubs pw s' = none :=
    matchAtW_none_of_forall_drop (by decide)
  have Hw : ∀ s', s' <:+ ('\n' :: disclaimerTailText) → ∀ pw : Bool,
      matchAtW willHitSubs pw s' = none :=
    matchAtW_none_of_forall_drop (by decide)
  have Hb : ∀ s', s' <:+ ('\n' :: disclaimerTailText) → ∀ pw : Bool,
      matchAtW willBeSubs pw s' = none :=
    matchAtW_none_of_forall_drop (by decide)
  have main : ∃ b, suggestCompliantVersion text issues = b ++ '\n' :: disclaimerTailText := by
    unfold suggestCompliantVersion
    simp only [hd, if_true, hD]
    cases hp : issues.any (fun i => isSubstr (("specific prediction").data) i) with
    | false =>
      cases hg2 : issues.any (fun i => isSubstr (("guaranteed").data) i) with
      | false =>
        simp only [Bool.false_eq_true, if_false]
        exact ⟨text, rfl⟩
      | true =>
        simp only [if_true, Bool.false_eq_true, if_false]
        obtain ⟨b1, hb1⟩ := subW_append_suffix guaranteeSubs hg_nl Hg false text
        rw [hb1]
        obtain ⟨b2, hb2⟩ := subW_append_suffix cannotLoseSubs hc_nl Hc false b1
        rw [hb2]
        exact ⟨b2, rfl⟩
    | true =>
      cases hg2 : issues.any (fun i => isSubstr (("guaranteed").data) i) with
      | false =>
        simp only [if_true, Bool.false_eq_true, if_false]
        obtain ⟨b1, hb1⟩ := subW_append_suffix willHitSubs hw_nl Hw false text
        rw [hb1]
        obtain ⟨b2, hb2⟩ := subW_append_suffix willBeSubs hb_nl Hb false b1
        rw [hb2]
        exact ⟨b2, rfl⟩
      | true =>
        simp only [if_true]
        obtain ⟨b1, hb1⟩ := subW_append_suffix guaranteeSubs hg_nl Hg false text
        rw [hb1]
        obtain ⟨b2, hb2⟩ := subW_append_suffix cannotLoseSubs hc_nl Hc false b1
        rw [hb2]
        obtain ⟨b3, hb3⟩ := subW_append_suffix willHitSubs hw_nl Hw false b2
        rw [hb3]
        obtain ⟨b4, hb4⟩ := subW_append_suffix willBeSubs hb_nl Hb false b3
        rw [hb4]
        exact ⟨b4, rfl⟩
  obtain ⟨b, hb⟩ := main
  exact ⟨b, by rw [hb, hD]⟩

/-- C5 witness: the amended theorem at a concrete text (already containing
a disclaimer phrase) and a disclaimer-plus-guarantee issue list. -/
theorem C5_witness :
    disclaimerAppendText <:+
      suggestCompliantVersion (("Stocks are guaranteed to rise; not financial advice.").data)
        [gIssue, dIssue] :=
  C5_disclaimer_always_appended
    (("Stocks are guaranteed to rise; not financial advice.").data)
    [gIssue, dIssue] (by decide)

/-- Every state produced by `p*` leaves a suffix of the input. -/
theorem matStar_suffix (p : Char → Bool) :
    ∀ (pw : Bool) (s : List Char) (r : Bool × List Char),
      r ∈ matStar p pw s → r.2 <:+ s := by
  intro pw s
  induction s generalizing pw with
  | nil =>
    intro r h
    simp only [matStar, List.mem_singleton] at h
    rw [h]
  | cons c t ih =>
    intro r h
    simp only [matStar, List.mem_cons] at h
    rcases h with h | h
    · rw [h]
    · by_cases hp : p c = true
      · rw [if_pos hp] at h
        exact (ih (isWordChar c) r h).trans (List.suffix_cons c t)
      · rw [if_neg hp] at h
        exact absurd h (List.not_mem_nil r)

/-- Every state produced by the matcher leaves a suffix of the input. -/
theorem mat_suffix : ∀ (re : RE) (pw : Bool) (s : List Char) (r : Bool × List Char),
    r ∈ mat re pw s → r.2 <:+ s := by
  intro re
  induction re with
  | eps =>
    intro pw s r h
    simp only [mat, List.mem_singleton] at h
    rw [h]
  | cls p =>
    intro pw s r h
    cases s with
    | nil => exact absurd h (List.not_mem_nil r)
    | cons c t =>
      simp only [mat] at h
      by_cases hp : p c = true
      · rw [if_pos hp, List.mem_singleton] at h
        rw [h]
        exact List.suffix_cons c t
      · rw [if_neg hp] at h
        exact absurd h (List.not_mem_nil r)
  | seq a b iha ihb =>
    intro pw s r h
    simp only [mat, List.mem_flatMap] at h
    obtain ⟨r1, h1, h2⟩ := h
    exact (ihb r1.1 r1.2 r h2).trans (iha pw s r1 h1)
  | alt a b iha ihb =>
    intro pw s r h
    simp only [mat, List.mem_append] at h
    rcases h with h | h
    · exact iha pw s r h
    · exact ihb pw s r h
  | star p =>
    intro pw s r h
    exact matStar_suffix p pw s r h
  | wb =>
    intro pw s r h
    simp only [mat] at h
    by_cases hb : (pw != headIsWord s) = true
    · rw [if_pos hb, List.mem_singleton] at h
      rw [h]
    · rw [if_neg hb] at h
      exact absurd h (List.not_mem_nil r)

theorem deadOn_seq_left {a : RE} (b : RE) {s : List Char} (h : deadOn a s) :
    deadOn (RE.seq a b) s := by
  intro pw s' hs
  simp [mat, h pw s' hs]

theorem deadOn_seq_right (a : RE) {b : RE} {s : List Char} (h : deadOn b s) :
    deadOn (RE.seq a b) s := by
  intro pw s' hs
  simp only [mat]
  rw [List.flatMap_eq_nil_iff]
  intro r hr
  exact h r.1 r.2 ((mat_suffix a pw s' r hr).trans hs)

theorem deadOn_cls {p : Char → Bool} {s : List Char}
    (hp : ∀ c ∈ s, p c = false) : deadOn (RE.cls p) s := by
  intro pw s' hs
  cases s' with
  | nil => rfl
  | cons c t =>
    have hc : p c = false := hp c (hs.subset (List.mem_cons_self c t))
    simp [mat, hc]

theorem deadOn_repC26 {s : List Char} (hup : ∀ c ∈ s, isUpperAZ c = false) :
    deadOn (repC 2 6 isUpperAZ) s :=
  deadOn_seq_left _ (deadOn_cls hup)

theorem deadOn_ppp1 {s : List Char} (hup : ∀ c ∈ s, isUpperAZ c = false) :
    deadOn ppp1 s :=
  deadOn_seq_right _ (deadOn_seq_left _ (deadOn_repC26 hup))

theorem deadOn_ppp6 {s : List Char} (hup : ∀ c ∈ s, isUpperAZ c = false) :
    deadOn ppp6 s :=
  deadOn_seq_right _ (deadOn_seq_left _ (deadOn_seq_left _ (deadOn_cls hup)))

theorem deadOn_fc1 {s : List Char} (hup : ∀ c ∈ s, isUpperAZ c = false) :
    deadOn fc1 s :=
  deadOn_seq_right _ (deadOn_seq_right _ (deadOn_seq_right _ (deadOn_seq_right _
    (deadOn_seq_left _ (deadOn_repC26 hup)))))

theorem deadOn_fc2 {s : List Char} (hup : ∀ c ∈ s, isUpperAZ c = false) :
    deadOn fc2 s :=
  deadOn_seq_right _ (deadOn_seq_left _ (deadOn_repC26 hup))

theorem searchFrom_false_of_deadOn {re : RE} {s : List Char} (h : deadOn re s) :
    ∀ (s' : List Char) (pw : Bool), s' <:+ s → searchFrom re pw s' = false := by
  intro s'
  induction s' with
  | nil =>
    intro pw hs
    simp [searchFrom, h pw [] hs]
  | cons c t ih =>
    intro pw hs
    simp [searchFrom, h pw (c :: t) hs,
      ih (isWordChar c) ((List.suffix_cons c t).trans hs)]

theorem search_false_of_deadOn {re : RE} {s : List Char} (h : deadOn re s) :
    search re s = false :=
  searchFrom_false_of_deadOn h s false (List.suffix_refl s)

/-- Packing a valid (< 0xD800) codepoint and reading it back is the
identity. -/
theorem toNat_ofNat_valid {m : Nat} (h : m < 55296) : (Char.ofNat m).toNat = m := by
  unfold Char.ofNat
  rw [dif_pos (Or.inl h)]
  rfl

/-- ASCII lowercasing never yields an `A`-`Z` character. -/
theorem isUpperAZ_lowerChar (c : Char) : isUpperAZ (lowerChar c) = false := by
  unfold lowerChar
  by_cases h : (65 ≤ c.toNat && c.toNat ≤ 90) = true
  · rw [if_pos h]
    simp only [Bool.and_eq_true, decide_eq_true_eq] at h
    unfold isUpperAZ
    rw [toNat_ofNat_valid (by omega)]
    have hgt : ¬(c.toNat + 32 ≤ 90) := by omega
    simp [hgt]
  · rw [if_neg h]
    unfold isUpperAZ
    simpa using h

/-- A lowercased string contains no `A`-`Z` character. -/
theorem lowers_no_upper (text : List Char) :
    ∀ c ∈ lowers text, isUpperAZ c = false := by
  intro c hc
  obtain ⟨c0, _, rfl⟩ := List.mem_map.mp hc
  exact isUpperAZ_lowerChar c0

/-- C9: the four topic-classifier regexes that require an uppercase `A`-`Z`
token never match, because they are searched against the lowercased text;
consequently removing them from the financial-content classification does
not change its result for any input. -/
theorem C9_uppercase_patterns_never_match (text : List Char) :
    search ppp1 (lowers text) = false ∧
    search ppp6 (lowers text) = false ∧
    search fc1 (lowers text) = false ∧
    search fc2 (lowers text) = false ∧
    financialHeuristic text = financialHeuristicPruned text := by
  have hup := lowers_no_upper text
  have h1 := search_false_of_deadOn (deadOn_ppp1 hup)
  have h6 := search_false_of_deadOn (deadOn_ppp6 hup)
  have hf1 := search_false_of_deadOn (deadOn_fc1 hup)
  have hf2 := search_false_of_deadOn (deadOn_fc2 hup)
  refine ⟨h1, h6, hf1, hf2, ?_⟩
  unfold financialHeuristic financialHeuristicPruned
  simp only [pricePredictionPatterns, pricePredictionPatternsPruned,
    financialContexts, financialContextsPruned, List.any_cons, List.any_nil,
    h1, h6, hf1, hf2, Bool.false_or, Bool.or_false]

end FinCompliance
